import Mathlib

/-!
Verification of the streaming agent-invocation and session-persistence
subsystem of the sales-copilot repository.

The embedding covers three source units:

* `streamAgentCoreRuntime` (the stream decoder and the per-attempt request
  logic of the AgentCore runtime client),
* `streamAgent` (the bounded-retry wrapper in
  `UI/src/services/agentInvocationService.ts`),
* `onPromptSend` (the conversation controller in
  `UI/src/pages/Home/Home.tsx`).

All JavaScript strings are embedded as `List Char` (abbreviated `Str`),
so that list lemmas apply directly; JavaScript string concatenation is
list append.  `JSON.parse` is embedded by `jsonParse` below over the
full JSON grammar.  A numeral is kept as its exact decimal value (an
exact fraction); the only observations the program makes of a number —
truthiness of the double, and its string coercion — are embedded by an
exact model of IEEE-754 binary64 rounding and of the ECMA
number-to-string algorithm, computed with integer and rational
arithmetic only (no floating-point types).  One representation gap
remains: Lean characters range over Unicode scalar values, which cannot
encode the lone UTF-16 surrogate code units JavaScript strings may
hold, so a lone surrogate escape (absent from well-formed JSON) decodes
to the replacement character; surrogate pairs decode to the designated
code point.
-/

/-- JavaScript strings are modelled as lists of characters. -/
abbrev Str := List Char

/-- Whether `pat` occurs contiguously inside `s`; this embeds the
JavaScript test of `indexOf` being greater than `-1`. -/
def hasSub (pat s : Str) : Bool :=
  (List.range (s.length + 1)).any fun i => (s.drop i).take pat.length = pat

/-- Number of positions of `s` at which `pat` occurs (overlaps counted). -/
def countSub (pat s : Str) : Nat :=
  (List.range (s.length + 1)).countP fun i => (s.drop i).take pat.length = pat

/-! ## The binary64 number model

A JSON numeral is parsed by `JSON.parse` into an IEEE-754 binary64
value.  The program observes that value in exactly two ways: JavaScript
truthiness (the value is falsy iff it is a zero) and string coercion.
Both are embedded exactly below: `toDbl` rounds the exact decimal value
of the numeral to the nearest binary64 value (ties to even, with
subnormals, underflow to zero and overflow to infinity), and
`dblToString` is the ECMA number-to-string algorithm (shortest decimal
significand that rounds back to the value, closest and then even on
ties, with the fixed/exponential formatting rules).  Everything is
computed with exact integer arithmetic over `Rx`, an unreduced fraction
type (integer numerator over positive natural denominator) whose
comparisons cross-multiply — no floating-point types anywhere. -/

/-- An exact fraction `num / den` (`den` positive by construction;
fractions are not reduced, every observation below compares by
cross-multiplication). -/
structure Rx where
  num : Int
  den : Nat
deriving DecidableEq

/-- Sum of two exact fractions. -/
def Rx.add (a b : Rx) : Rx :=
  ⟨a.num * (b.den : Int) + b.num * (a.den : Int), a.den * b.den⟩

/-- Difference of two exact fractions. -/
def Rx.sub (a b : Rx) : Rx :=
  ⟨a.num * (b.den : Int) - b.num * (a.den : Int), a.den * b.den⟩

/-- Product of two exact fractions. -/
def Rx.mul (a b : Rx) : Rx := ⟨a.num * b.num, a.den * b.den⟩

/-- Negation of an exact fraction. -/
def Rx.neg (a : Rx) : Rx := ⟨-a.num, a.den⟩

/-- Absolute value of an exact fraction. -/
def Rx.abs (a : Rx) : Rx := ⟨(a.num.natAbs : Int), a.den⟩

/-- Comparison by cross-multiplication (denominators positive). -/
def Rx.le (a b : Rx) : Bool := a.num * (b.den : Int) ≤ b.num * (a.den : Int)

/-- Strict comparison by cross-multiplication. -/
def Rx.lt (a b : Rx) : Bool := a.num * (b.den : Int) < b.num * (a.den : Int)

/-- Floor of a nonnegative exact fraction. -/
def Rx.floorNat (a : Rx) : Nat := a.num.toNat / a.den

/-- Square-and-multiply power with fuel in the first argument (the
fuel `n` always suffices for the exponent `n`, at logarithmic depth). -/
def powFuel (b : Nat) : Nat → Nat → Nat
  | 0, _ => 1
  | fuel + 1, n =>
    if n = 0 then 1
    else
      let h := powFuel b fuel (n / 2)
      if n % 2 = 0 then h * h else b * h * h

/-- The power `2 ^ n`. -/
def pow2I (n : Nat) : Nat := powFuel 2 n n

/-- The power `10 ^ n`. -/
def pow10I (n : Nat) : Nat := powFuel 10 n n

/-- The exact value `2 ^ k` for an integer `k`. -/
def ratPow2 (k : Int) : Rx :=
  if 0 ≤ k then ⟨(pow2I k.toNat : Nat), 1⟩ else ⟨1, pow2I (-k).toNat⟩

/-- The exact value `10 ^ k` for an integer `k`. -/
def ratPow10 (k : Int) : Rx :=
  if 0 ≤ k then ⟨(pow10I k.toNat : Nat), 1⟩ else ⟨1, pow10I (-k).toNat⟩

/-- Structural base-2 logarithm (floor), with fuel in the first
argument; the fuel `n` always suffices for `n` itself. -/
def log2Floor : Nat → Nat → Nat
  | 0, _ => 0
  | fuel + 1, n => if n < 2 then 0 else log2Floor fuel (n / 2) + 1

/-- Floor of the base-2 logarithm. -/
def natLog2 (n : Nat) : Nat := log2Floor n n

/-- For a positive fraction `a`, the unique `e` with `2^e ≤ a < 2^(e+1)`
(found near the bit-length estimate of numerator and denominator). -/
def findExp (a : Rx) : Int :=
  let e0 : Int := (natLog2 a.num.toNat : Int) - (natLog2 a.den : Int)
  (List.range 5).foldl
    (fun acc i =>
      let e := e0 - 2 + i
      if (ratPow2 e).le a then e else acc)
    (e0 - 2)

/-- For a positive fraction `a`, the unique `e` with
`10^e ≤ a < 10^(e+1)` (found near the digit-count estimate). -/
def findExp10 (a : Rx) : Int :=
  let e0 : Int := (Int.ofNat (Nat.repr a.num.toNat).length)
    - (Int.ofNat (Nat.repr a.den).length)
  (List.range 5).foldl
    (fun acc i =>
      let e := e0 - 2 + i
      if (ratPow10 e).le a then e else acc)
    (e0 - 2)

/-- Round a nonnegative fraction to the nearest natural, ties to even
(the fractional part is compared with one half via the remainder). -/
def roundHalfEven (a : Rx) : Nat :=
  let n := a.num.toNat / a.den
  let r := a.num.toNat % a.den
  if 2 * r < a.den then n
  else if a.den < 2 * r then n + 1
  else if n % 2 = 0 then n else n + 1

/-- A binary64 value as produced by `JSON.parse` on a numeral: a zero
(sign irrelevant to truthiness and to `String`), a signed infinity, or
a finite nonzero value `±m·2^e` with `m < 2^53` (subnormals have
`e = -1074`). -/
inductive Dbl where
  | zero : Dbl
  | inf : Bool → Dbl
  | finite : Bool → Nat → Int → Dbl

/-- Round an exact fraction to the nearest binary64 value (division by
`2^ebits` is multiplication by `2^(-ebits)`). -/
def toDbl (q : Rx) : Dbl :=
  if q.num = 0 then .zero
  else
    let neg := q.num < 0
    let a := q.abs
    let e := findExp a
    let ebits : Int := max (e - 52) (-1074)
    let m0 := roundHalfEven (a.mul (ratPow2 (-ebits)))
    let m : Nat := if m0 = 2 ^ 53 then 2 ^ 52 else m0
    let ebits : Int := if m0 = 2 ^ 53 then ebits + 1 else ebits
    if m = 0 then .zero
    else if (ratPow2 1024).le ((Rx.mk m 1).mul (ratPow2 ebits)) then .inf neg
    else .finite neg m ebits

/-- Decimal digits of a natural number. -/
def decDigits (n : Nat) : Str := (Nat.repr n).toList

/-- Half the gap from `m·2^e` up to the next binary64 value: `2^(e-1)`. -/
def ulpHalfHigh (e : Int) : Rx := ratPow2 (e - 1)

/-- Half the gap from `m·2^e` down to the previous binary64 value: a
quarter ulp (`2^(e-2)`) at a power-of-two boundary above the minimum
normal, else half an ulp (`2^(e-1)`). -/
def ulpHalfLow (m : Nat) (e : Int) : Rx :=
  if m = 2 ^ 52 ∧ -1074 < e then ratPow2 (e - 2) else ratPow2 (e - 1)

/-- Try a `k`-digit decimal significand for the value `v` with rounding
interval `(lo, hi)` (closed iff `inclusive`): among the two integers
bracketing `v / 10^(n-k)`, keep those whose value rounds back to `v`,
and choose the closest (ties to even).  A carry to `10^k` is renormalised
to the one-digit significand `1` at position `n + 1`. -/
def pickS (v lo hi : Rx) (inclusive : Bool) (n : Int) (k : Nat) :
    Option (Nat × Int) :=
  let scale := ratPow10 (n - k)
  let s1 := (v.mul (ratPow10 ((k : Int) - n))).floorNat
  let ok := fun (s : Nat) =>
    let x := (Rx.mk s 1).mul scale
    if inclusive then lo.le x && x.le hi else lo.lt x && x.lt hi
  let normS := fun (s : Nat) =>
    if s = 10 ^ k then ((1 : Nat), n + 1) else (s, n)
  match (ok s1, ok (s1 + 1)) with
  | (false, false) => none
  | (true, false) => some (normS s1)
  | (false, true) => some (normS (s1 + 1))
  | (true, true) =>
    let d1 := (v.sub ((Rx.mk s1 1).mul scale)).abs
    let d2 := (v.sub ((Rx.mk (s1 + 1) 1).mul scale)).abs
    if d1.lt d2 then some (normS s1)
    else if d2.lt d1 then some (normS (s1 + 1))
    else some (normS (if s1 % 2 = 0 then s1 else s1 + 1))

/-- The shortest decimal significand for `v` (17 digits always suffice
for a binary64 value): the smallest `k` whose `k`-digit significand
rounds back to `v`. -/
def shortestRepr (v lo hi : Rx) (inclusive : Bool) (n : Int) : Nat × Int :=
  (((List.range 17).foldl
      (fun acc i =>
        match acc with
        | some r => some r
        | none => pickS v lo hi inclusive n (i + 1))
      none)).getD ((v.mul (ratPow10 (17 - n))).floorNat, n)

/-- ECMA formatting of a positive value with significand digits `ds`
(the digits of `s`, `k` of them) at decimal position `n`. -/
def fmtDecimal (ds : Str) (n : Int) : Str :=
  let k : Int := ds.length
  if k ≤ n ∧ n ≤ 21 then ds ++ List.replicate (n - k).toNat '0'
  else if 0 < n ∧ n ≤ 21 then ds.take n.toNat ++ ['.'] ++ ds.drop n.toNat
  else if -6 < n ∧ n ≤ 0 then
    ['0', '.'] ++ List.replicate (-n).toNat '0' ++ ds
  else
    let mant := if ds.length = 1 then ds else ds.take 1 ++ ['.'] ++ ds.drop 1
    mant ++ ['e'] ++ (if 0 ≤ n - 1 then ['+'] else ['-'])
      ++ decDigits (n - 1).natAbs

/-- The JavaScript string coercion of a binary64 value
(ECMA `Number::toString` in base 10). -/
def dblToString : Dbl → Str
  | .zero => "0".toList
  | .inf neg => if neg then "-Infinity".toList else "Infinity".toList
  | .finite neg m e =>
    let v : Rx := (Rx.mk m 1).mul (ratPow2 e)
    let lo := v.sub (ulpHalfLow m e)
    let hi := v.add (ulpHalfHigh e)
    let n := findExp10 v + 1
    let (s, n') := shortestRepr v lo hi (m % 2 = 0) n
    let str := fmtDecimal (decDigits s) n'
    if neg then '-' :: str else str

/-! ## The JSON value model (embedding of the argument of `JSON.parse`)

`streamAgentCoreRuntime` runs `JSON.parse` on each payload and yields the
parsed value when it is truthy.  A yielded non-string value is observed
downstream only through JavaScript string coercion, so events carry the
coerced string. -/

/-- A parsed JSON value.  A numeral carries its exact decimal value; it
is observed only through `toDbl` (truthiness) and `dblToString` (string
coercion), matching the binary64 value the program holds. -/
inductive JsValue where
  | str  : Str → JsValue
  | num  : Rx → JsValue
  | bool : Bool → JsValue
  | null : JsValue
  | arr  : List JsValue → JsValue
  | obj  : List (Str × JsValue) → JsValue

/-- JavaScript truthiness of a parsed value (`if (text) yield text`);
a number is falsy iff its binary64 value is a zero. -/
def JsValue.truthy : JsValue → Bool
  | .str s  => !s.isEmpty
  | .num q  => match toDbl q with | .zero => false | _ => true
  | .bool b => b
  | .null   => false
  | .arr _  => true
  | .obj _  => true

mutual
/-- JavaScript string coercion of a parsed value. -/
def JsValue.coerce : JsValue → Str
  | .str s  => s
  | .num q  => dblToString (toDbl q)
  | .bool b => if b then "true".toList else "false".toList
  | .null   => "null".toList
  | .arr vs => JsValue.coerceItems vs
  | .obj _  => "[object Object]".toList

/-- Array coercion: elements joined by commas, `null` elements empty. -/
def JsValue.coerceItems : List JsValue → Str
  | [] => []
  | [v] => JsValue.coerceElem v
  | v :: vs => JsValue.coerceElem v ++ [','] ++ JsValue.coerceItems vs

/-- Element coercion inside an array (`String([null]) = ""`). -/
def JsValue.coerceElem : JsValue → Str
  | .null => []
  | v => JsValue.coerce v
end

/-! ## The JSON text parser (embedding of `JSON.parse`) -/

/-- JSON insignificant whitespace. -/
def isJsonWs (c : Char) : Bool :=
  c = ' ' || c = '\t' || c = '\n' || c = '\r'

/-- Drop leading JSON whitespace. -/
def skipWs : Str → Str
  | [] => []
  | c :: rest => if isJsonWs c then skipWs rest else c :: rest

/-- Value of a hexadecimal digit. -/
def hexVal (c : Char) : Option Nat :=
  if '0' ≤ c ∧ c ≤ '9' then some (c.toNat - '0'.toNat)
  else if 'a' ≤ c ∧ c ≤ 'f' then some (c.toNat - 'a'.toNat + 10)
  else if 'A' ≤ c ∧ c ≤ 'F' then some (c.toNat - 'A'.toNat + 10)
  else none

/-- The value of a `\\uXXXX` escape quad. -/
def hexQuad (a b c d : Char) : Option Nat :=
  match hexVal a, hexVal b, hexVal c, hexVal d with
  | some x1, some x2, some x3, some x4 =>
    some (((x1 * 16 + x2) * 16 + x3) * 16 + x4)
  | _, _, _, _ => none

/-- Decode the body of a JSON string literal after the opening quote,
returning the decoded characters and the input after the closing quote.
Control characters below `U+0020` are rejected, as in JSON.  A
surrogate pair of `\\u` escapes decodes to the designated code point; a
lone surrogate escape — which Lean characters (Unicode scalar values)
cannot encode — decodes to the replacement character `U+FFFD`. -/
def parseStrBody (fuel : Nat) (cs : Str) : Option (Str × Str) :=
  match fuel with
  | 0 => none
  | fuel + 1 =>
    match cs with
    | [] => none
    | '"' :: rest => some ([], rest)
    | '\\' :: esc =>
      match esc with
      | 'u' :: h1 :: h2 :: h3 :: h4 :: rest =>
        match hexQuad h1 h2 h3 h4 with
        | some u =>
          if 0xD800 ≤ u ∧ u ≤ 0xDBFF then
            match rest with
            | '\\' :: 'u' :: g1 :: g2 :: g3 :: g4 :: rest₂ =>
              match hexQuad g1 g2 g3 g4 with
              | some l =>
                if 0xDC00 ≤ l ∧ l ≤ 0xDFFF then
                  match parseStrBody fuel rest₂ with
                  | some (s, rem) =>
                    some (Char.ofNat
                      (0x10000 + (u - 0xD800) * 0x400 + (l - 0xDC00)) :: s,
                      rem)
                  | none => none
                else
                  match parseStrBody fuel rest with
                  | some (s, rem) => some (Char.ofNat 0xFFFD :: s, rem)
                  | none => none
              | none => none
            | _ =>
              match parseStrBody fuel rest with
              | some (s, rem) => some (Char.ofNat 0xFFFD :: s, rem)
              | none => none
          else if 0xDC00 ≤ u ∧ u ≤ 0xDFFF then
            match parseStrBody fuel rest with
            | some (s, rem) => some (Char.ofNat 0xFFFD :: s, rem)
            | none => none
          else
            match parseStrBody fuel rest with
            | some (s, rem) => some (Char.ofNat u :: s, rem)
            | none => none
        | none => none
      | e :: rest =>
        let dec : Option Char :=
          if e = '"' then some '"'
          else if e = '\\' then some '\\'
          else if e = '/' then some '/'
          else if e = 'b' then some (Char.ofNat 8)
          else if e = 'f' then some (Char.ofNat 12)
          else if e = 'n' then some '\n'
          else if e = 'r' then some '\r'
          else if e = 't' then some '\t'
          else none
        match dec with
        | some c =>
          match parseStrBody fuel rest with
          | some (s, rem) => some (c :: s, rem)
          | none => none
        | none => none
      | [] => none
    | c :: rest =>
      if c.toNat < 32 then none
      else
        match parseStrBody fuel rest with
        | some (s, rem) => some (c :: s, rem)
        | none => none

/-- Decimal digits of a JSON integer numeral, most significant first. -/
def takeDigits : Str → (List Nat × Str)
  | [] => ([], [])
  | c :: rest =>
    if '0' ≤ c ∧ c ≤ '9' then
      let (ds, rem) := takeDigits rest
      ((c.toNat - '0'.toNat) :: ds, rem)
    else ([], c :: rest)

/-- Numeric value of a digit list. -/
def digitsVal (ds : List Nat) : Nat := ds.foldl (fun a d => a * 10 + d) 0

/-- Parse a JSON numeral — optional minus sign, integer part without
leading zeros, optional fraction (`.` with at least one digit), optional
exponent (`e`/`E`, optional sign, at least one digit) — returning its
exact decimal value. -/
def parseNum (cs : Str) : Option (Rx × Str) :=
  let (neg, cs₁) : Bool × Str :=
    match cs with
    | '-' :: rest => (true, rest)
    | _ => (false, cs)
  match takeDigits cs₁ with
  | ([], _) => none
  | (d :: ds, rem₁) =>
    if d = 0 ∧ ds ≠ [] then none
    else
      let ipart := digitsVal (d :: ds)
      let fracRes : Option (List Nat × Str) :=
        match rem₁ with
        | '.' :: rem₂ =>
          match takeDigits rem₂ with
          | ([], _) => none
          | (fs, rem₃) => some (fs, rem₃)
        | _ => some ([], rem₁)
      match fracRes with
      | none => none
      | some (fs, rem₃) =>
        let expRes : Option (Int × Str) :=
          match rem₃ with
          | c :: rem₄ =>
            if c = 'e' ∨ c = 'E' then
              let (eneg, rem₅) : Bool × Str :=
                match rem₄ with
                | '+' :: r => (false, r)
                | '-' :: r => (true, r)
                | _ => (false, rem₄)
              match takeDigits rem₅ with
              | ([], _) => none
              | (es, rem₆) =>
                let ev : Int := Int.ofNat (digitsVal es)
                some (if eneg then -ev else ev, rem₆)
            else some (0, rem₃)
          | [] => some (0, rem₃)
        match expRes with
        | none => none
        | some (ex, remF) =>
          let mant : Rx :=
            ⟨(ipart * pow10I fs.length + digitsVal fs : Nat),
             pow10I fs.length⟩
          let v : Rx := mant.mul (ratPow10 ex)
          some (if neg then v.neg else v, remF)

mutual
/-- Parse one JSON value at the head of the input. -/
def parseVal (fuel : Nat) (cs : Str) : Option (JsValue × Str) :=
  match fuel with
  | 0 => none
  | fuel + 1 =>
    match cs with
    | [] => none
    | '"' :: rest =>
      match parseStrBody fuel rest with
      | some (s, rem) => some (.str s, rem)
      | none => none
    | '[' :: rest =>
      let rest' := skipWs rest
      match rest' with
      | ']' :: rem => some (.arr [], rem)
      | _ =>
        match parseItems fuel rest' with
        | some (vs, rem) => some (.arr vs, rem)
        | none => none
    | '{' :: rest =>
      let rest' := skipWs rest
      match rest' with
      | '}' :: rem => some (.obj [], rem)
      | _ =>
        match parseFields fuel rest' with
        | some (fs, rem) => some (.obj fs, rem)
        | none => none
    | 't' :: 'r' :: 'u' :: 'e' :: rest => some (.bool true, rest)
    | 'f' :: 'a' :: 'l' :: 's' :: 'e' :: rest => some (.bool false, rest)
    | 'n' :: 'u' :: 'l' :: 'l' :: rest => some (.null, rest)
    | _ =>
      match parseNum cs with
      | some (n, rem) => some (.num n, rem)
      | none => none

/-- Parse a nonempty comma-separated list of array items, up to and
including the closing bracket. -/
def parseItems (fuel : Nat) (cs : Str) : Option (List JsValue × Str) :=
  match fuel with
  | 0 => none
  | fuel + 1 =>
    match parseVal fuel cs with
    | some (v, rem) =>
      match skipWs rem with
      | ',' :: rem' =>
        match parseItems fuel (skipWs rem') with
        | some (vs, rem'') => some (v :: vs, rem'')
        | none => none
      | ']' :: rem' => some ([v], rem')
      | _ => none
    | none => none

/-- Parse a nonempty comma-separated list of object members, up to and
including the closing brace. -/
def parseFields (fuel : Nat) (cs : Str) : Option (List (Str × JsValue) × Str) :=
  match fuel with
  | 0 => none
  | fuel + 1 =>
    match cs with
    | '"' :: rest =>
      match parseStrBody fuel rest with
      | some (k, rem) =>
        match skipWs rem with
        | ':' :: rem' =>
          match parseVal fuel (skipWs rem') with
          | some (v, rem'') =>
            match skipWs rem'' with
            | ',' :: rem3 =>
              match parseFields fuel (skipWs rem3) with
              | some (fs, rem4) => some ((k, v) :: fs, rem4)
              | none => none
            | '}' :: rem3 => some ([(k, v)], rem3)
            | _ => none
          | none => none
        | _ => none
      | none => none
    | _ => none
end

/-- Embedding of `JSON.parse`: whitespace-trimmed single value, the whole
input consumed.  `none` models the thrown `SyntaxError`. -/
def jsonParse (s : Str) : Option JsValue :=
  match parseVal (4 * s.length + 8) (skipWs s) with
  | some (v, rest) => if (skipWs rest).isEmpty then some v else none
  | none => none

/-! ## The stream decoder (embedding of the loop of `streamAgentCoreRuntime`)

```
let buffer = "";
while (true) {
  const { done, value } = await reader.read();
  if (done) break;
  buffer += decoder.decode(value, { stream: true });
  const lines = buffer.split('\n');
  buffer = lines.pop() || "";
  for (const line of lines) {
    if (line.startsWith("data: ")) {
      const data = line.substring(6);
      try { const text = JSON.parse(data); if (text) yield text; }
      catch { if (data) yield data; }
    }
  }
}
```
-/

/-- The event-prefix marker `"data: "` (6 characters). -/
def dataMarker : Str := "data: ".toList

/-- Events yielded for one complete line: nothing without the marker;
with the marker, the parsed payload when truthy, the raw payload on a
parse error when nonempty. -/
def processLine (line : Str) : List Str :=
  if line.take 6 = dataMarker then
    let data := line.drop 6
    match jsonParse data with
    | some v => if v.truthy then [v.coerce] else []
    | none => if data.isEmpty then [] else [data]
  else []

/-- Embedding of the split of the buffer on newlines followed by the
pop of the last element: `splitNl cur s` returns the complete
(newline-terminated) lines and the trailing fragment, with `cur` the
partial line read so far. -/
def splitNl (cur : Str) : Str → List Str × Str
  | [] => ([], cur)
  | c :: rest =>
    if c = '\n' then
      let (ls, t) := splitNl [] rest
      (cur :: ls, t)
    else splitNl (cur ++ [c]) rest

/-- One iteration of the decoder loop on an inbound chunk: append the
chunk to the buffer, emit events for every complete line, retain the
trailing fragment as the new buffer. -/
def decodeStep : Str × List Str → Str → Str × List Str
  | (buf, evs), chunk =>
    let (ls, t) := splitNl [] (buf ++ chunk)
    (t, evs ++ ls.flatMap processLine)

/-- The ordered event sequence produced by the decoder loop over a chunk
list; the residual buffer is discarded when the stream reports done. -/
def decodeChunks (chunks : List Str) : List Str :=
  (chunks.foldl decodeStep ([], [])).2

/-- Events of a whole stream delivered as one single chunk. -/
def decodeAll (s : Str) : List Str :=
  (splitNl [] s).1.flatMap processLine

/-! ## Compositionality of the decoder loop -/

theorem splitNl_append (a : Str) : ∀ (cur b : Str),
    splitNl cur (a ++ b) =
      ((splitNl cur a).1 ++ (splitNl (splitNl cur a).2 b).1,
       (splitNl (splitNl cur a).2 b).2) := by
  induction a with
  | nil => intro cur b; simp [splitNl]
  | cons c a ih =>
    intro cur b
    by_cases h : c = '\n'
    · subst h
      simp [splitNl, ih []]
    · simp [splitNl, h, ih (cur ++ [c])]

theorem splitNl_no_nl (s : Str) : ∀ cur, (∀ c ∈ s, c ≠ '\n') →
    splitNl cur s = ([], cur ++ s) := by
  induction s with
  | nil => intro cur _; simp [splitNl]
  | cons c s ih =>
    intro cur h
    have hc : c ≠ '\n' := h c (by simp)
    have hs : ∀ c' ∈ s, c' ≠ '\n' := fun c' hc' => h c' (by simp [hc'])
    simp [splitNl, hc, ih (cur ++ [c]) hs]

theorem splitNl_tail_no_nl (s : Str) : ∀ cur, (∀ c ∈ cur, c ≠ '\n') →
    ∀ c ∈ (splitNl cur s).2, c ≠ '\n' := by
  induction s with
  | nil => intro cur h; simpa [splitNl] using h
  | cons c s ih =>
    intro cur h
    by_cases hc : c = '\n'
    · subst hc
      simpa [splitNl] using ih [] (by simp)
    · refine fun c' hc' => ?_
      have : ∀ x ∈ cur ++ [c], x ≠ '\n' := by
        intro x hx
        rcases List.mem_append.1 hx with hx | hx
        · exact h x hx
        · simpa using (List.mem_singleton.1 hx ▸ hc)
      exact ih (cur ++ [c]) this c' (by simpa [splitNl, hc] using hc')

theorem splitNl_shift (t s : Str) (ht : ∀ c ∈ t, c ≠ '\n') :
    splitNl [] (t ++ s) = splitNl t s := by
  rw [splitNl_append, splitNl_no_nl t [] ht]
  simp

/-- The decoder loop, started on a newline-free buffer, computes the same
lines and events as a single split of the whole remaining input. -/
theorem decode_foldl (chunks : List Str) : ∀ (buf : Str) (evs : List Str),
    (∀ c ∈ buf, c ≠ '\n') →
    chunks.foldl decodeStep (buf, evs) =
      ((splitNl [] (buf ++ chunks.flatten)).2,
       evs ++ (splitNl [] (buf ++ chunks.flatten)).1.flatMap processLine) := by
  induction chunks with
  | nil =>
    intro buf evs hbuf
    simp [splitNl_no_nl buf [] hbuf]
  | cons c rest ih =>
    intro buf evs hbuf
    have htail : ∀ x ∈ (splitNl [] (buf ++ c)).2, x ≠ '\n' :=
      splitNl_tail_no_nl (buf ++ c) [] (by simp)
    have hstep : decodeStep (buf, evs) c =
        ((splitNl [] (buf ++ c)).2,
         evs ++ (splitNl [] (buf ++ c)).1.flatMap processLine) := rfl
    rw [List.foldl_cons, hstep, ih _ _ htail]
    rw [show buf ++ (c :: rest).flatten = (buf ++ c) ++ rest.flatten by simp,
        splitNl_append (buf ++ c) [] rest.flatten,
        splitNl_shift _ _ htail]
    simp

/-- The event sequence of the decoder over a chunk list equals the event
sequence over the whole stream delivered as one chunk. -/
theorem decodeChunks_eq_decodeAll (chunks : List Str) :
    decodeChunks chunks = decodeAll chunks.flatten := by
  unfold decodeChunks decodeAll
  rw [decode_foldl chunks [] [] (by simp)]
  simp

/-! ## Claim C1: chunk-boundary independence -/

/-- C1.  Chunk-boundary independence of the stream decoder: any two ways
of splitting the same byte sequence into an ordered list of chunks make
the decoder loop of `streamAgentCoreRuntime` emit the identical ordered
sequence of events. -/
theorem decoder_chunk_boundary_independence (c1 c2 : List Str)
    (h : c1.flatten = c2.flatten) : decodeChunks c1 = decodeChunks c2 := by
  rw [decodeChunks_eq_decodeAll, decodeChunks_eq_decodeAll, h]

/-- Witness for C1 at a concrete split: `"data: \"x\"\ndata"` split after
the third byte versus delivered whole. -/
theorem decoder_chunk_boundary_independence_witness :
    ["dat".toList, "a: \"x\"\ndata".toList].flatten =
      ["data: \"x\"\ndata".toList].flatten ∧
    decodeChunks ["dat".toList, "a: \"x\"\ndata".toList] =
      decodeChunks ["data: \"x\"\ndata".toList] :=
  ⟨by decide, decoder_chunk_boundary_independence _ _ (by decide)⟩

/-! ## Claim C10: the trailing fragment is discarded at end of stream -/

/-- C10.  A final record not terminated by a newline is never emitted:
appending a newline-free trailing fragment to the stream leaves the
emitted event sequence of the decoder unchanged (the residual buffer is
discarded when the reader reports done). -/
theorem decoder_drops_trailing_fragment (chunks : List Str) (frag : Str)
    (hfrag : ∀ c ∈ frag, c ≠ '\n') :
    decodeChunks (chunks ++ [frag]) = decodeChunks chunks := by
  rw [decodeChunks_eq_decodeAll, decodeChunks_eq_decodeAll]
  unfold decodeAll
  rw [show (chunks ++ [frag]).flatten = chunks.flatten ++ frag by simp,
      splitNl_append chunks.flatten [] frag,
      splitNl_no_nl frag _ hfrag]
  simp

/-- Witness for C10: the unterminated record `"data: \"b\""` at the end
of the stream emits nothing. -/
theorem decoder_drops_trailing_fragment_witness :
    (∀ c ∈ "data: \"b\"".toList, c ≠ '\n') ∧
    decodeChunks ["data: \"a\"\n".toList, "data: \"b\"".toList] =
      decodeChunks ["data: \"a\"\n".toList] :=
  ⟨by decide,
   decoder_drops_trailing_fragment ["data: \"a\"\n".toList]
     ("data: \"b\"".toList) (by decide)⟩

/-! ## The agent invocation client

Embedding of one attempt of `streamAgentCoreRuntime` up to and including
the response-status classification, and of the bounded retry loop of
`streamAgent` in `UI/src/services/agentInvocationService.ts`:

```
let retryCount = 0;
const maxRetries = 1;
while (retryCount <= maxRetries) {
  try {
    for await (const chunk of streamAgentCoreRuntime(...)) { onChunk?.(chunk); }
    return;
  } catch (error) {
    if (error.message === "TOKEN_EXPIRED" && retryCount < maxRetries) {
      retryCount++;
      await new Promise(resolve => setTimeout(resolve, 1000));
      continue;
    }
    throw error;
  }
}
```

The environment supplies what the outside world returns on each attempt:
the stored bearer token (read from `localStorage` at every attempt; no
statement of `streamAgent` or `streamAgentCoreRuntime` ever writes it),
the agent-mode endpoint table, and the HTTP response with its body
chunks per attempt index. -/

/-- An HTTP response as observed by `streamAgentCoreRuntime`. -/
structure HttpResponse where
  ok : Bool
  status : Nat
  statusText : Str
  body : Str

/-- The outside world of one `streamAgent` call. -/
structure AgentEnv where
  /-- The stored value read by `localStorage.getItem` at the
  access-token key. -/
  storedToken : Option Str
  /-- The `precall`/`postcall` endpoint table `obj[agentId]`. -/
  arns : Str → Option Str
  /-- Response to the request of attempt `n`. -/
  respond : Nat → HttpResponse
  /-- Body chunks of the response of attempt `n` when it is `ok`. -/
  chunksOf : Nat → List Str

/-- The outbound request of one attempt. -/
structure AgentRequest where
  token : Str
  prompt : Str
  sessionId : Str
  userId : Option Str
deriving DecidableEq

/-- The message of the error thrown on the credential-expiry signature. -/
def tokenExpiredMsg : Str := "TOKEN_EXPIRED".toList

/-- The fixed diagnostic phrase of a rejected credential. -/
def ineffectualPhrase : Str := "Ineffectual token".toList

/-- What one run of the `streamAgentCoreRuntime` generator does: either
it completes after yielding an event sequence, or it throws. -/
inductive AttemptOutcome where
  | events (evs : List Str)
  | threw (msg : Str)

/-- One attempt of `streamAgentCoreRuntime`: read the stored token, look
up the runtime endpoint, issue the request, classify a non-ok status
(403 with a body containing `Ineffectual token` throws `TOKEN_EXPIRED`),
and on ok drive the stream decoder over the body chunks.  The first
component records the request issued, if one was. -/
def runtimeAttempt (env : AgentEnv) (agentId prompt sessionId : Str)
    (userId : Option Str) (n : Nat) : Option AgentRequest × AttemptOutcome :=
  match env.storedToken with
  | none => (none, .threw "No authentication token available".toList)
  | some tok =>
    match env.arns agentId with
    | none => (none, .threw ("No runtime ARN configured for agent: ".toList ++ agentId))
    | some _arn =>
      let req : AgentRequest := ⟨tok, prompt, sessionId, userId⟩
      let r := env.respond n
      if r.ok then
        (some req, .events (decodeChunks (env.chunksOf n)))
      else if r.status = 403 ∧ hasSub ineffectualPhrase r.body then
        (some req, .threw tokenExpiredMsg)
      else
        (some req, .threw ("AgentCore invocation failed: ".toList
          ++ (toString r.status).toList ++ [' '] ++ r.statusText
          ++ " - ".toList ++ r.body))

/-- The retry loop of `streamAgent` from a given `retryCount`, returning
the ordered requests issued and the final result: the chunks delivered
to `onChunk` on success, or the propagated error message. -/
def streamAgentLoop (env : AgentEnv) (agentId prompt sessionId : Str)
    (userId : Option Str) (retryCount : Nat) :
    List AgentRequest × Except Str (List Str) :=
  if retryCount ≤ 1 then
    match runtimeAttempt env agentId prompt sessionId userId retryCount with
    | (req?, .events evs) => (req?.toList, .ok evs)
    | (req?, .threw m) =>
      if m = tokenExpiredMsg ∧ retryCount < 1 then
        let rest := streamAgentLoop env agentId prompt sessionId userId (retryCount + 1)
        (req?.toList ++ rest.1, rest.2)
      else (req?.toList, .error m)
  else ([], .ok [])
termination_by 2 - retryCount

/-- The function `streamAgent`: the loop started at `retryCount = 0`. -/
def streamAgent (env : AgentEnv) (agentId prompt sessionId : Str)
    (userId : Option Str) : List AgentRequest × Except Str (List Str) :=
  streamAgentLoop env agentId prompt sessionId userId 0

/-! ## Claim C3: the retry bound -/

/-- C3.  If the first attempt and the retried attempt both fail with the
credential-expiry signature (HTTP 403 with a body containing
`Ineffectual token`, raised as `TOKEN_EXPIRED`), `streamAgent` issues
exactly two requests — one retry — and then propagates the terminal
failure to its caller; it never issues a third attempt and never
swallows the failure. -/
theorem streamAgent_retry_bound (env : AgentEnv)
    (agentId prompt sessionId : Str) (userId : Option Str) (tok arn : Str)
    (htok : env.storedToken = some tok)
    (harn : env.arns agentId = some arn)
    (h0 : (env.respond 0).ok = false)
    (h0s : (env.respond 0).status = 403)
    (h0b : hasSub ineffectualPhrase (env.respond 0).body = true)
    (h1 : (env.respond 1).ok = false)
    (h1s : (env.respond 1).status = 403)
    (h1b : hasSub ineffectualPhrase (env.respond 1).body = true) :
    (streamAgent env agentId prompt sessionId userId).1.length = 2 ∧
    (streamAgent env agentId prompt sessionId userId).2
      = .error tokenExpiredMsg := by
  unfold streamAgent
  rw [streamAgentLoop, streamAgentLoop]
  simp [runtimeAttempt, htok, harn, h0, h0s, h0b, h1, h1s, h1b]

/-- An environment whose first two attempts both report the
credential-expiry signature. -/
def envTwoExpired : AgentEnv where
  storedToken := some "tokA".toList
  arns := fun a => if a = "precall".toList then some "arnPre".toList else none
  respond := fun _ =>
    ⟨false, 403, "Forbidden".toList,
     "invalid bearer: Ineffectual token".toList⟩
  chunksOf := fun _ => []

/-- Witness for C3 at the concrete two-expiries environment. -/
theorem streamAgent_retry_bound_witness :
    envTwoExpired.storedToken = some "tokA".toList ∧
    (streamAgent envTwoExpired "precall".toList "p".toList "s".toList
        (some "u".toList)).1.length = 2 ∧
    (streamAgent envTwoExpired "precall".toList "p".toList "s".toList
        (some "u".toList)).2 = .error tokenExpiredMsg :=
  ⟨rfl,
   streamAgent_retry_bound envTwoExpired "precall".toList "p".toList
     "s".toList (some "u".toList) "tokA".toList "arnPre".toList
     rfl (by decide) rfl rfl (by decide) rfl rfl (by decide)⟩

/-! ## Claim C4: no credential refresh happens before the retry

The catch branch of `streamAgent` only logs, increments `retryCount`
and sleeps one second; no statement of the retry path refreshes the
stored credential, and the retried `streamAgentCoreRuntime` call
re-reads the unchanged `localStorage` entry.  The theorem evaluates the
model at the failing input: both requests carry the identical token. -/

/-- C4 (failing-input evaluation).  When the first attempt fails with
the credential-rejected signature, the single retry issues its request
with the very same stored bearer token as the first attempt — no
freshly obtained credential, contradicting the refresh-before-retry
claim. -/
theorem streamAgent_retry_reuses_stale_token :
    (streamAgent envTwoExpired "precall".toList "p".toList "s".toList
        (some "u".toList)).1 =
      [⟨"tokA".toList, "p".toList, "s".toList, some "u".toList⟩,
       ⟨"tokA".toList, "p".toList, "s".toList, some "u".toList⟩] := by
  rw [streamAgent, streamAgentLoop, streamAgentLoop]
  simp [runtimeAttempt, envTwoExpired]
  decide

/-! ## Claim C5: the payload decoding rule -/

/-- C5 counterexample.  The payload `null` is valid JSON but not a JSON
string literal, so the claim demands raw passthrough of `"null"`; the
decoder instead emits nothing, because `JSON.parse` succeeds with the
falsy value `null` and the `if (text)` guard suppresses the yield. -/
theorem processLine_null_counterexample :
    jsonParse "null".toList = some JsValue.null ∧
    (∀ s, jsonParse "null".toList ≠ some (JsValue.str s)) ∧
    processLine "data: null".toList = [] ∧
    ([] : List Str) ≠ ["null".toList] := by
  refine ⟨rfl, ?_, rfl, by decide⟩
  intro s h
  rw [show jsonParse "null".toList = some JsValue.null from rfl] at h
  exact JsValue.noConfusion (Option.some.inj h)

/-- C5 (amended).  For a complete line carrying the `data: ` marker: a
payload parsing as a JSON string literal emits the decoded string when
it is nonempty (and nothing when empty); a payload that is not valid
JSON is passed through raw when nonempty; in general a payload parsing
as any JSON value emits the string coercion of the value exactly when the
value is truthy.  The decoder is a total function of the line — no
payload makes it throw or fail the invocation. -/
theorem processLine_payload_rule (data : Str) :
    (∀ s, jsonParse data = some (JsValue.str s) →
      processLine (dataMarker ++ data) = if s.isEmpty then [] else [s]) ∧
    (jsonParse data = none →
      processLine (dataMarker ++ data) = if data.isEmpty then [] else [data]) ∧
    (∀ v, jsonParse data = some v →
      processLine (dataMarker ++ data) = if v.truthy then [v.coerce] else []) := by
  have hmark : dataMarker.length = 6 := rfl
  have htake : (dataMarker ++ data).take 6 = dataMarker := by
    rw [← hmark, List.take_left]
  have hdrop : (dataMarker ++ data).drop 6 = data := by
    rw [← hmark, List.drop_left]
  refine ⟨?_, ?_, ?_⟩
  · intro s h
    simp [processLine, htake, hdrop, h, JsValue.truthy, JsValue.coerce]
  · intro h
    simp [processLine, htake, hdrop, h]
  · intro v h
    simp [processLine, htake, hdrop, h]

/-- Witness for C5 (amended): the string-literal payload `"hi"` is
decoded and emitted; the malformed payload `oops` is passed through
raw; the numeral payload `1e3` parses to the truthy value `1000` and
its coercion `"1000"` is emitted; the numeral payload `0.0` parses to
a falsy zero and nothing is emitted. -/
theorem processLine_payload_rule_witness :
    jsonParse "\"hi\"".toList = some (JsValue.str "hi".toList) ∧
    processLine (dataMarker ++ "\"hi\"".toList) = ["hi".toList] ∧
    jsonParse "oops".toList = none ∧
    processLine (dataMarker ++ "oops".toList) = ["oops".toList] ∧
    jsonParse "1e3".toList = some (JsValue.num ⟨1000, 1⟩) ∧
    processLine (dataMarker ++ "1e3".toList) = ["1000".toList] ∧
    jsonParse "0.0".toList = some (JsValue.num ⟨0, 10⟩) ∧
    processLine (dataMarker ++ "0.0".toList) = [] := by
  refine ⟨rfl, ?_, rfl, ?_, rfl, ?_, rfl, ?_⟩
  · have h := (processLine_payload_rule "\"hi\"".toList).1 "hi".toList rfl
    simpa using h
  · have h := (processLine_payload_rule "oops".toList).2.1 rfl
    simpa using h
  · have h := (processLine_payload_rule "1e3".toList).2.2
      (JsValue.num ⟨1000, 1⟩) rfl
    rw [h]
    have hcc : (JsValue.num (Rx.mk 1000 1)).coerce = "1000".toList := by
      simp [JsValue.coerce]
      rfl
    simp [show (JsValue.num (Rx.mk 1000 1)).truthy = true from rfl, hcc]
  · have h := (processLine_payload_rule "0.0".toList).2.2
      (JsValue.num ⟨0, 10⟩) rfl
    rw [h]
    simp [show (JsValue.num (Rx.mk 0 10)).truthy = false from rfl]

/-! ## The conversation controller (embedding of `onPromptSend`)

From `UI/src/pages/Home/Home.tsx`.  The turn handler receives the
submitted text `value` (`detail.value` of the prompt input) while the
component also holds the `prompt` state variable; both are inputs of the
model because the handler reads both.  React functional state updates
are applied in submission order.  The session-creation branch (executed
only when `localStorage` has no session id) and timestamps are
orthogonal to the modelled claims and are omitted; `persisted` records
the `addChatToSession` calls of the turn in order.

```
setLogResponse("");
...
setMessages((prevMessages) => [...prevMessages, newMessage]);   // user turn
addChatToSession({ ..., content: value, role: "user" });
setMessages((prev) => { botMessageIndex = prev.length; return [...prev, getLoadingMessage()]; });
try {
  await streamAgent(heading..., prompt, curSessionId, user?.username, (chunk) => {
    if (chunk.indexOf("[LOG]") > -1) {
      logData += chunk + " \n";
      setLogResponse((prev) => prev + logData);
    } else {
      fullResponse += chunk;
      setMessages((prev) => { ... updated[botMessageIndex] = { content: fullResponse, ... } ... });
    }
  });
  addChatToSession({ ..., content: fullResponse, role: "assistant" });
} catch (error) {
  setMessages((prev) => { ... updated[botMessageIndex] = { content: "Unable process now please try after sometime", ... } ... });
}
```
-/

/-- The log-marker substring. -/
def logMarker : Str := "[LOG]".toList

/-- The fixed user-facing failure message of the catch branch. -/
def failureText : Str := "Unable process now please try after sometime".toList

/-- A transcript entry (author and content). -/
structure ChatMsg where
  authorId : Str
  content : Str
deriving DecidableEq

/-- The loading placeholder appended at turn start; its React node
content is modelled by its visible label. -/
def loadingMsg : ChatMsg := ⟨"gen-ai".toList, "Generating a response".toList⟩

/-- The controller state touched while chunks arrive. -/
structure TurnState where
  messages : List ChatMsg
  fullResponse : Str
  logData : Str
  logResponse : Str
deriving DecidableEq

/-- The `onChunk` callback: a chunk containing `[LOG]` extends the log
accumulator and appends the whole accumulator to the displayed log
transcript; any other chunk extends `fullResponse` and overwrites the
transcript slot fixed at turn start with the accumulated content. -/
def handleChunk (bIdx : Nat) (st : TurnState) (chunk : Str) : TurnState :=
  if hasSub logMarker chunk then
    let newLog := st.logData ++ chunk ++ " \n".toList
    { st with logData := newLog, logResponse := st.logResponse ++ newLog }
  else
    let newFull := st.fullResponse ++ chunk
    { st with
      fullResponse := newFull,
      messages :=
        if bIdx < st.messages.length then
          st.messages.set bIdx ⟨"gen-ai".toList, newFull⟩
        else st.messages }

/-- How the awaited `streamAgent` call ends: it resolves after
delivering its chunks, or rejects after delivering a first part. -/
inductive StreamOutcome where
  | ok (chunks : List Str)
  | failAfter (delivered : List Str)

/-- One `addChatToSession` call. -/
structure PersistCall where
  role : Str
  content : Str
deriving DecidableEq

/-- Result of one turn of the controller. -/
structure TurnResult where
  state : TurnState
  persisted : List PersistCall
  /-- The prompt argument passed to `streamAgent`. -/
  promptSent : Str
deriving DecidableEq

/-- One user turn of the controller, given how the stream ends. -/
def onPromptSend (prev : List ChatMsg) (value promptState : Str)
    (outcome : StreamOutcome) : TurnResult :=
  let msgs0 := prev ++ [⟨"user-john-due".toList, value⟩, loadingMsg]
  let st0 : TurnState := ⟨msgs0, [], [], []⟩
  let b := prev.length + 1
  match outcome with
  | .ok chunks =>
    let st := chunks.foldl (handleChunk b) st0
    ⟨st, [⟨"user".toList, value⟩, ⟨"assistant".toList, st.fullResponse⟩],
     promptState⟩
  | .failAfter delivered =>
    let st := delivered.foldl (handleChunk b) st0
    let st' := { st with
      messages :=
        if b < st.messages.length then
          st.messages.set b ⟨"gen-ai".toList, failureText⟩
        else st.messages }
    ⟨st', [⟨"user".toList, value⟩], promptState⟩

/-! ## Characterization of the chunk-callback fold -/

/-- A chunk is routed to the log channel iff it contains `[LOG]`. -/
def isLogChunk (c : Str) : Bool := hasSub logMarker c

/-- Folding the callback over a chunk list: `fullResponse` accumulates
exactly the non-log chunks in order; the message list keeps its length;
the messages are untouched when no content chunk arrived and otherwise
equal the initial messages with only the slot `b` overwritten by the
accumulated content; `logData` accumulates exactly the log chunks, each
suffixed by `" \n"`, in order. -/
theorem handleChunk_foldl (b : Nat) (cs : List Str) : ∀ st : TurnState,
    b < st.messages.length →
    (cs.foldl (handleChunk b) st).fullResponse
        = st.fullResponse ++ (cs.filter (fun c => !isLogChunk c)).flatten ∧
    (cs.foldl (handleChunk b) st).messages.length = st.messages.length ∧
    (cs.foldl (handleChunk b) st).messages
        = (if (cs.filter (fun c => !isLogChunk c)).isEmpty then st.messages
           else st.messages.set b
             ⟨"gen-ai".toList,
              st.fullResponse ++ (cs.filter (fun c => !isLogChunk c)).flatten⟩) ∧
    (cs.foldl (handleChunk b) st).logData
        = st.logData
            ++ (cs.filter (fun c => isLogChunk c)).flatMap
                 (fun c => c ++ " \n".toList) := by
  induction cs with
  | nil => intro st hb; simp
  | cons c rest ih =>
    intro st hb
    by_cases hc : isLogChunk c
    · have hstep : handleChunk b st c =
          { st with logData := st.logData ++ c ++ " \n".toList,
                    logResponse := st.logResponse
                      ++ (st.logData ++ c ++ " \n".toList) } := by
        simp [handleChunk, isLogChunk] at hc ⊢
        simp [hc]
      obtain ⟨ih1, ih2, ih3, ih4⟩ := ih
        { st with logData := st.logData ++ c ++ " \n".toList,
                  logResponse := st.logResponse
                    ++ (st.logData ++ c ++ " \n".toList) } hb
      rw [List.foldl_cons, hstep]
      refine ⟨by simpa [hc] using ih1, by simpa using ih2, ?_, ?_⟩
      · simpa [hc] using ih3
      · simp only [ih4]
        simp [hc, List.append_assoc]
    · have hstep : handleChunk b st c =
          { st with fullResponse := st.fullResponse ++ c,
                    messages := st.messages.set b
                      ⟨"gen-ai".toList, st.fullResponse ++ c⟩ } := by
        simp [handleChunk, isLogChunk] at hc ⊢
        simp [hc, hb]
      have hb' : b < (st.messages.set b
          ⟨"gen-ai".toList, st.fullResponse ++ c⟩).length := by
        simpa using hb
      obtain ⟨ih1, ih2, ih3, ih4⟩ := ih
        { st with fullResponse := st.fullResponse ++ c,
                  messages := st.messages.set b
                    ⟨"gen-ai".toList, st.fullResponse ++ c⟩ } hb'
      rw [List.foldl_cons, hstep]
      refine ⟨by simpa [hc, List.append_assoc] using ih1,
              by simpa using ih2, ?_, by simpa [hc] using ih4⟩
      by_cases hrest : (rest.filter (fun c => !isLogChunk c)).isEmpty
      · have hrest' : rest.filter (fun c => !isLogChunk c) = [] :=
          List.isEmpty_iff.1 hrest
        rw [ih3]
        simp [hc, hrest']
      · rw [ih3]
        simp [hc, hrest, List.set_set, List.append_assoc]

/-! ## Claim C7: controller failure semantics -/

/-- C7.  If the streaming invocation rejects (after any delivered
chunks), the controller replaces the transcript slot of the turn with the
fixed failure message and persists no assistant message for the turn —
the only persistence call is the user message; the assistant persistence
call happens exactly on the success path, with the assembled content. -/
theorem controller_failure_semantics (prev : List ChatMsg)
    (value promptState : Str) (delivered : List Str) :
    (onPromptSend prev value promptState (.failAfter delivered)).persisted
        = [⟨"user".toList, value⟩] ∧
    (∀ p ∈ (onPromptSend prev value promptState (.failAfter delivered)).persisted,
        p.role ≠ "assistant".toList) ∧
    ((onPromptSend prev value promptState
        (.failAfter delivered)).state.messages)[prev.length + 1]?
        = some ⟨"gen-ai".toList, failureText⟩ ∧
    ∀ chunks,
      (onPromptSend prev value promptState (.ok chunks)).persisted
        = [⟨"user".toList, value⟩,
           ⟨"assistant".toList,
            (onPromptSend prev value promptState (.ok chunks)).state.fullResponse⟩] := by
  have hb : prev.length + 1 <
      (prev ++ [⟨"user-john-due".toList, value⟩, loadingMsg]).length := by
    simp
  obtain ⟨-, hlen, -, -⟩ :=
    handleChunk_foldl (prev.length + 1) delivered
      ⟨prev ++ [⟨"user-john-due".toList, value⟩, loadingMsg], [], [], []⟩ hb
  refine ⟨rfl, ?_, ?_, fun chunks => rfl⟩
  · intro p hp
    simp [onPromptSend] at hp
    subst hp
    show "user".toList ≠ "assistant".toList
    decide
  · have hb' : prev.length + 1 <
        ((delivered.foldl (handleChunk (prev.length + 1))
          ⟨prev ++ [⟨"user-john-due".toList, value⟩, loadingMsg],
           [], [], []⟩).messages).length := by
      rw [hlen]; exact hb
    simp only [onPromptSend, hb', if_true]
    exact List.getElem?_set_eq_of_lt _ hb'

/-! ## Claim C8: monotonic in-place transcript updates -/

/-- C8.  Within one turn all content updates overwrite the single slot
fixed at turn start (index `prev.length + 1`), leaving every other
transcript entry untouched; after the turn received its first `k`
chunks, the accumulated content written to the slot equals the
concatenation of the content (non-log) chunks among them; and the
content after any first `k` chunks is a prefix of the final content, so
the displayed value never regresses. -/
theorem controller_monotonic_in_place (prev : List ChatMsg)
    (value promptState : Str) (chunks : List Str) (k : Nat) :
    (onPromptSend prev value promptState (.ok chunks)).state.messages
      = (if (chunks.filter (fun c => !isLogChunk c)).isEmpty
         then prev ++ [⟨"user-john-due".toList, value⟩, loadingMsg]
         else (prev ++ [⟨"user-john-due".toList, value⟩, loadingMsg]).set
            (prev.length + 1)
            ⟨"gen-ai".toList,
             (chunks.filter (fun c => !isLogChunk c)).flatten⟩) ∧
    (onPromptSend prev value promptState
        (.ok (chunks.take k))).state.fullResponse
      = ((chunks.take k).filter (fun c => !isLogChunk c)).flatten ∧
    ∃ t, (onPromptSend prev value promptState
        (.ok (chunks.take k))).state.fullResponse ++ t
      = (onPromptSend prev value promptState (.ok chunks)).state.fullResponse := by
  have hb : prev.length + 1 <
      (prev ++ [⟨"user-john-due".toList, value⟩, loadingMsg]).length := by
    simp
  obtain ⟨hfull, -, hmsgs, -⟩ :=
    handleChunk_foldl (prev.length + 1) chunks
      ⟨prev ++ [⟨"user-john-due".toList, value⟩, loadingMsg], [], [], []⟩ hb
  obtain ⟨hfullk, -, -, -⟩ :=
    handleChunk_foldl (prev.length + 1) (chunks.take k)
      ⟨prev ++ [⟨"user-john-due".toList, value⟩, loadingMsg], [], [], []⟩ hb
  refine ⟨?_, ?_, ?_⟩
  · simpa [onPromptSend] using hmsgs
  · simpa [onPromptSend] using hfullk
  · refine ⟨((chunks.drop k).filter (fun c => !isLogChunk c)).flatten, ?_⟩
    have hsplit : chunks.take k ++ chunks.drop k = chunks :=
      List.take_append_drop k chunks
    have : (chunks.filter (fun c => !isLogChunk c)).flatten
        = ((chunks.take k).filter (fun c => !isLogChunk c)).flatten
          ++ ((chunks.drop k).filter (fun c => !isLogChunk c)).flatten := by
      conv_lhs => rw [← hsplit]
      rw [List.filter_append, List.flatten_append]
    simp only [onPromptSend] at *
    rw [hfullk, hfull, this]
    simp

/-! ## Claim C2: Scenario B -/

/-- The three chunks of Scenario B. -/
def scenarioBChunks : List Str :=
  ["data: \"Hel".toList, "lo\"\n[LOG] tool=x\n".toList,
   "data: \" world\"\n".toList]

/-- Evaluation of the decoder on the Scenario B chunks. -/
theorem scenarioB_events_eval :
    decodeChunks scenarioBChunks = ["Hello".toList, " world".toList] := by
  have h1 : decodeChunks scenarioBChunks
      = [(JsValue.str "Hello".toList).coerce,
         (JsValue.str " world".toList).coerce] := rfl
  rw [h1]
  simp [JsValue.coerce]

/-- C2 counterexample.  On the Scenario B chunks the decoder emits only
the two content events `"Hello"` and `" world"`: the `[LOG] tool=x`
line carries no `data: ` prefix, so no event containing `tool=x` is
ever produced, and the controller log accumulator stays empty — the
claimed single log event does not exist. -/
theorem scenarioB_no_log_event :
    decodeChunks scenarioBChunks = ["Hello".toList, " world".toList] ∧
    (∀ e ∈ decodeChunks scenarioBChunks,
        hasSub "tool=x".toList e = false) ∧
    (onPromptSend [] "q".toList "q".toList
        (.ok (decodeChunks scenarioBChunks))).state.logData = [] := by
  rw [scenarioB_events_eval]
  decide

/-- C2 (amended).  Scenario B yields exactly the content events
`"Hello"` and `" world"` and no log event; the assembled content equals
`"Hello world"` and the displayed log transcript stays empty. -/
theorem scenarioB_content_events_only :
    decodeChunks scenarioBChunks = ["Hello".toList, " world".toList] ∧
    (onPromptSend [] "q".toList "q".toList
        (.ok (decodeChunks scenarioBChunks))).state.fullResponse
      = "Hello world".toList ∧
    (onPromptSend [] "q".toList "q".toList
        (.ok (decodeChunks scenarioBChunks))).state.logResponse = [] := by
  rw [scenarioB_events_eval]
  decide

/-! ## Claim C6: log-marker routing

Each `[LOG]` chunk is excluded from the assembled answer and appended
exactly once to the accumulator `logData`, but the displayed log
transcript `logResponse` is extended by the *whole* accumulator on each
log chunk (`setLogResponse((prev) => prev + logData)`), so an earlier
log chunk reappears once per later log chunk.  The theorem evaluates
the controller at the failing input of two log chunks: the first chunk
occurs twice in the final log transcript, refuting exactly-once
appending.  (The commented-out predecessor line
`setLogResponse((prev) => prev + chunk)` shows the exactly-once
intent.) -/

/-- C6 (failing-input evaluation).  With the two log chunks
`"[LOG] a"`, `"[LOG] b"` the accumulator holds each exactly once, yet
the displayed log transcript contains `"[LOG] a \n"` twice. -/
theorem controller_duplicates_log_transcript :
    (onPromptSend [] "q".toList "q".toList
        (.ok ["[LOG] a".toList, "[LOG] b".toList])).state.logData
      = "[LOG] a \n[LOG] b \n".toList ∧
    (onPromptSend [] "q".toList "q".toList
        (.ok ["[LOG] a".toList, "[LOG] b".toList])).state.logResponse
      = "[LOG] a \n[LOG] a \n[LOG] b \n".toList ∧
    countSub "[LOG] a \n".toList
      ((onPromptSend [] "q".toList "q".toList
        (.ok ["[LOG] a".toList, "[LOG] b".toList])).state.logResponse) = 2 ∧
    (onPromptSend [] "q".toList "q".toList
        (.ok ["[LOG] a".toList, "[LOG] b".toList])).state.fullResponse
      = [] := by
  decide

/-! ## Claim C9: submission-value consistency

`onPromptSend` appends and persists the submitted `detail.value`, but
passes the closed-over `prompt` state variable — a distinct source — to
`streamAgent`; whenever the two differ, the agent receives a different
string from the one shown and stored (the stale-closure defect flagged
in the design notes of the specification). -/

/-- C9 (failing-input evaluation).  With submitted text `"new words"`
while the state variable still holds `"old words"`, the transcript and
both persistence calls carry `"new words"`, but the prompt sent to the
agent is `"old words"`. -/
theorem controller_sends_stale_prompt :
    (onPromptSend [] "new words".toList "old words".toList
        (.ok [])).promptSent = "old words".toList ∧
    (onPromptSend [] "new words".toList "old words".toList
        (.ok [])).state.messages
      = [⟨"user-john-due".toList, "new words".toList⟩, loadingMsg] ∧
    (onPromptSend [] "new words".toList "old words".toList
        (.ok [])).persisted
      = [⟨"user".toList, "new words".toList⟩,
         ⟨"assistant".toList, []⟩] ∧
    (onPromptSend [] "new words".toList "old words".toList
        (.ok [])).promptSent ≠ "new words".toList := by
  decide

/-- Witness for C7 at a concrete failed turn: the slot holds the fixed
failure message and only the user message was persisted. -/
theorem controller_failure_semantics_witness :
    (onPromptSend [] "v".toList "v".toList
        (.failAfter ["x".toList])).persisted
      = [⟨"user".toList, "v".toList⟩] ∧
    ((onPromptSend [] "v".toList "v".toList
        (.failAfter ["x".toList])).state.messages)[1]?
      = some ⟨"gen-ai".toList, failureText⟩ :=
  ⟨(controller_failure_semantics [] "v".toList "v".toList ["x".toList]).1,
   (controller_failure_semantics [] "v".toList "v".toList ["x".toList]).2.2.1⟩

/-- Witness for C8 at a concrete two-chunk turn split after the first
chunk. -/
theorem controller_monotonic_in_place_witness :
    (onPromptSend [] "v".toList "v".toList
        (.ok (["a".toList, "b".toList].take 1))).state.fullResponse
      = ((["a".toList, "b".toList].take 1).filter
          (fun c => !isLogChunk c)).flatten :=
  (controller_monotonic_in_place [] "v".toList "v".toList
    ["a".toList, "b".toList] 1).2.1
